import Mathlib

/-!
Verification of the repository-settings form in
`src/components/repositories/RepositorySettings.tsx`.

The component keeps two settings snapshots in React state:
`initialSettings` (the last value confirmed by the server, the "saved"
snapshot) and `settings` (the locally edited "draft" snapshot), plus a
transient text buffer `additionalEnvironmentToAdd` for a pending
environment line.  Field editors produce a new draft from the current
state; `areSettingsTheSame` compares draft against saved to gate the
Save button; the save mutation's `onCompleted`/`onError` callbacks decide
what happens to the state after a save attempt.

Everything below is a direct translation of that file: enums become
inductives, the JS objects become structures, each event handler becomes
a pure function on `ComponentState`, and the platform builtins the
handlers use (`Array.prototype.filter`/`concat`, `String.prototype.split`,
`JSON.stringify`) are modelled by executable Lean functions with the same
semantics.
-/

namespace RepositorySettings

/-- The `decryptEnvironmentVariables` enum, from the `mui.Select` options
(lines 150-152 of the source). -/
inductive DecryptEnvironmentVariables where
  | USERS_WITH_WRITE_PERMISSIONS
  | COLLABORATORS
  | EVERYONE
deriving DecidableEq, Repr

/-- The `configResolutionStrategy` enum, from the `mui.Select` options
(lines 163-165 of the source). -/
inductive ConfigResolutionStrategy where
  | SAME_SHA
  | MERGE_FOR_PRS
  | DEFAULT_BRANCH
deriving DecidableEq, Repr

/-- The `settings` object of the GraphQL fragment
`RepositorySettings_repository` (source lines 24-31). -/
structure Settings where
  needsApproval : Bool
  decryptEnvironmentVariables : DecryptEnvironmentVariables
  configResolutionStrategy : ConfigResolutionStrategy
  additionalEnvironment : List String
  cacheVersion : Int
  oidcSubIncludeClaimKeys : List String
deriving DecidableEq, Repr

/-- The React state of the component (source lines 37-39):
`initialSettings` is the saved snapshot, `settings` the draft snapshot,
and `additionalEnvironmentToAdd` the pending environment-line buffer. -/
structure ComponentState where
  initialSettings : Settings
  settings : Settings
  additionalEnvironmentToAdd : String
deriving DecidableEq, Repr

/-- `toggleField('needsApproval')` (source lines 60-67, wired at line 138):
replaces the draft with a copy whose `needsApproval` is negated. -/
def toggleNeedsApproval (st : ComponentState) : ComponentState :=
  { st with settings := { st.settings with needsApproval := !st.settings.needsApproval } }

/-- `changeField('decryptEnvironmentVariables')` (source lines 41-49,
wired at line 146): replaces the draft's `decryptEnvironmentVariables`
with the select's value. -/
def changeDecryptEnvironmentVariables (st : ComponentState)
    (value : DecryptEnvironmentVariables) : ComponentState :=
  { st with settings := { st.settings with decryptEnvironmentVariables := value } }

/-- `changeField('configResolutionStrategy')` (source lines 41-49,
wired at line 159): replaces the draft's `configResolutionStrategy`
with the select's value. -/
def changeConfigResolutionStrategy (st : ComponentState)
    (value : ConfigResolutionStrategy) : ComponentState :=
  { st with settings := { st.settings with configResolutionStrategy := value } }

/-- `setClearCaches` (source lines 51-58): when the checkbox is checked
the draft's `cacheVersion` becomes `initialSettings.cacheVersion + 1`,
when unchecked it becomes `initialSettings.cacheVersion`. -/
def setClearCaches (st : ComponentState) (checked : Bool) : ComponentState :=
  let cacheVersion :=
    if checked then st.initialSettings.cacheVersion + 1 else st.initialSettings.cacheVersion
  { st with settings := { st.settings with cacheVersion := cacheVersion } }

/-- The `onChange` of the pending environment-line input (source
line 207): replaces the `additionalEnvironmentToAdd` buffer with the raw
input text. -/
def editAdditionalEnvironmentToAdd (st : ComponentState) (text : String) : ComponentState :=
  { st with additionalEnvironmentToAdd := text }

/-- `addNewEnvVariable` (source lines 69-75): clears the pending buffer
and replaces the draft with a copy whose `additionalEnvironment` is the
old sequence with the old buffer value appended
(`(settings.additionalEnvironment || []).concat(additionalEnvironmentToAdd)`;
the `setSettings` call closes over the pre-clear buffer value). -/
def addNewEnvVariable (st : ComponentState) : ComponentState :=
  { st with
    additionalEnvironmentToAdd := ""
    settings := { st.settings with
      additionalEnvironment :=
        st.settings.additionalEnvironment ++ [st.additionalEnvironmentToAdd] } }

/-- `deleteEnv(line)` (source lines 77-82): replaces the draft's
`additionalEnvironment` with
`(settings.additionalEnvironment || []).filter(value => line !== value)`,
keeping exactly the entries that differ from `line`. -/
def deleteEnv (st : ComponentState) (line : String) : ComponentState :=
  { st with settings := { st.settings with
      additionalEnvironment :=
        st.settings.additionalEnvironment.filter fun value => line != value } }

/-- JavaScript `String.prototype.split` with a one-character separator,
on the character list of the string: `"a,b,c"` splits to
`["a","b","c"]`, `""` splits to `[""]`, `"a,"` splits to `["a",""]`. -/
def splitChars (sep : Char) : List Char → List (List Char)
  | [] => [[]]
  | c :: rest =>
    if c = sep then [] :: splitChars sep rest
    else
      match splitChars sep rest with
      | [] => [[c]]
      | h :: t => (c :: h) :: t

/-- JavaScript `text.split(sep)` for a one-character separator `sep`. -/
def splitJS (text : String) (sep : Char) : List String :=
  (splitChars sep text.data).map fun l => String.mk l

/-- The `onChange` of the OIDC claim-keys input (source lines 175-180):
replaces the draft's `oidcSubIncludeClaimKeys` with
`event.target.value.split(',')`. -/
def editOidcSubIncludeClaimKeys (st : ComponentState) (text : String) : ComponentState :=
  { st with settings := { st.settings with
      oidcSubIncludeClaimKeys := splitJS text ',' } }

/-! ### `JSON.stringify` on arrays of strings

`areSettingsTheSame` compares the two sequence fields with
`JSON.stringify(a) === JSON.stringify(b)`.  We model the builtin for
arrays of strings after ECMA-262 `JSON.stringify` / `QuoteJSONString`:
each element is wrapped in double quotes with `"` and `\` escaped, the
control characters using their short escapes (`\b \t \n \f \r`) or
`\u00xx`, and elements are joined with `,` inside `[` `]`. -/

/-- Lowercase hexadecimal digit for `n < 16`. -/
def hexDigit (n : Nat) : Char :=
  if n < 10 then Char.ofNat (48 + n) else Char.ofNat (87 + n)

/-- ECMA-262 `QuoteJSONString` escaping of one character. -/
def escapeChar (c : Char) : List Char :=
  if c = '"' then ['\\', '"']
  else if c = '\\' then ['\\', '\\']
  else if c = '\x08' then ['\\', 'b']
  else if c = '\t' then ['\\', 't']
  else if c = '\n' then ['\\', 'n']
  else if c = '\x0c' then ['\\', 'f']
  else if c = '\r' then ['\\', 'r']
  else if c.toNat < 32 then
    ['\\', 'u', '0', '0', hexDigit (c.toNat / 16), hexDigit (c.toNat % 16)]
  else [c]

/-- Escape a whole character sequence. -/
def escapeList : List Char → List Char
  | [] => []
  | c :: rest => escapeChar c ++ escapeList rest

/-- `QuoteJSONString`: the escaped characters wrapped in `"` quotes. -/
def quoteJSONString (s : List Char) : List Char :=
  '"' :: (escapeList s ++ ['"'])

/-- The `,`-separated continuation of a serialized array (everything
after the first element). -/
def stringifyTail : List (List Char) → List Char
  | [] => []
  | s :: rest => ',' :: (quoteJSONString s ++ stringifyTail rest)

/-- The `,`-separated serialized elements of an array of strings. -/
def stringifyElems : List (List Char) → List Char
  | [] => []
  | s :: rest => quoteJSONString s ++ stringifyTail rest

/-- `JSON.stringify` applied to an array of strings. -/
def jsonStringifyStringList (l : List String) : String :=
  String.mk ('[' :: (stringifyElems (l.map String.data) ++ [']']))

/-- Inverse of `hexDigit`, used only to prove that serialization is
injective. -/
def decodeHexDigit (c : Char) : Option Nat :=
  if 48 ≤ c.toNat ∧ c.toNat ≤ 57 then some (c.toNat - 48)
  else if 97 ≤ c.toNat ∧ c.toNat ≤ 102 then some (c.toNat - 87)
  else none

/-- Decoder for the body of a quoted JSON string: consumes escaped
characters up to the next unescaped `"` and returns the decoded
characters together with the unconsumed remainder.  Used only to prove
that `quoteJSONString` is injective. -/
def decodeChars : List Char → Option (List Char × List Char)
  | [] => none
  | c :: rest =>
    if c = '"' then some ([], rest)
    else if c = '\\' then
      match rest with
      | [] => none
      | e :: rest2 =>
        if e = '"' then (decodeChars rest2).map fun p => ('"' :: p.1, p.2)
        else if e = '\\' then (decodeChars rest2).map fun p => ('\\' :: p.1, p.2)
        else if e = 'b' then (decodeChars rest2).map fun p => ('\x08' :: p.1, p.2)
        else if e = 't' then (decodeChars rest2).map fun p => ('\t' :: p.1, p.2)
        else if e = 'n' then (decodeChars rest2).map fun p => ('\n' :: p.1, p.2)
        else if e = 'f' then (decodeChars rest2).map fun p => ('\x0c' :: p.1, p.2)
        else if e = 'r' then (decodeChars rest2).map fun p => ('\r' :: p.1, p.2)
        else if e = 'u' then
          match rest2 with
          | d1 :: d2 :: d3 :: d4 :: rest3 =>
            match decodeHexDigit d1, decodeHexDigit d2, decodeHexDigit d3, decodeHexDigit d4 with
            | some h1, some h2, some h3, some h4 =>
              (decodeChars rest3).map fun p =>
                (Char.ofNat (((h1 * 16 + h2) * 16 + h3) * 16 + h4) :: p.1, p.2)
            | _, _, _, _ => none
          | _ => none
        else none
    else (decodeChars rest).map fun p => (c :: p.1, p.2)
termination_by structural l => l

/-! ### Dirty check and save gating -/

/-- `areSettingsTheSame` (source lines 126-132): the conjunction of the
six field comparisons, the two sequence fields compared through
`JSON.stringify`. The first argument is `initialSettings` (saved), the
second `settings` (draft), as in the source. -/
def areSettingsTheSame (initialSettings settings : Settings) : Bool :=
  decide (settings.needsApproval = initialSettings.needsApproval) &&
  decide (settings.configResolutionStrategy = initialSettings.configResolutionStrategy) &&
  decide (jsonStringifyStringList settings.additionalEnvironment
            = jsonStringifyStringList initialSettings.additionalEnvironment) &&
  decide (jsonStringifyStringList settings.oidcSubIncludeClaimKeys
            = jsonStringifyStringList initialSettings.oidcSubIncludeClaimKeys) &&
  decide (settings.decryptEnvironmentVariables = initialSettings.decryptEnvironmentVariables) &&
  decide (settings.cacheVersion = initialSettings.cacheVersion)

/-- The dirty predicate of the spec: drafts differ from saved exactly
when `areSettingsTheSame` is false. -/
def isDirty (saved draft : Settings) : Bool :=
  ! areSettingsTheSame saved draft

/-- The Save button's `disabled` attribute (source line 230). -/
def saveButtonDisabled (st : ComponentState) : Bool :=
  areSettingsTheSame st.initialSettings st.settings

/-- The clear-caches checkbox's `checked` attribute (source line 221):
`initialSettings.cacheVersion !== settings.cacheVersion`, computed, not
stored. -/
def clearCachesChecked (st : ComponentState) : Bool :=
  decide (st.initialSettings.cacheVersion ≠ st.settings.cacheVersion)

/-! ### Persistence bridge -/

/-- The `$input` variables built by `onSave` (source lines 100-111). -/
structure RepositorySettingsInput where
  clientMutationId : String
  repositoryId : String
  needsApproval : Bool
  decryptEnvironmentVariables : DecryptEnvironmentVariables
  configResolutionStrategy : ConfigResolutionStrategy
  additionalEnvironment : List String
  cacheVersion : Int
  oidcSubIncludeClaimKeys : List String
deriving DecidableEq, Repr

/-- `onSave`'s construction of the mutation variables (source lines
100-111); `.concat()` makes a shallow copy of each array, which for an
immutable list is the list itself. -/
def onSaveVariables (repositoryId : String) (st : ComponentState) : RepositorySettingsInput :=
  { clientMutationId := "save-settings-" ++ repositoryId
    repositoryId := repositoryId
    needsApproval := st.settings.needsApproval
    decryptEnvironmentVariables := st.settings.decryptEnvironmentVariables
    configResolutionStrategy := st.settings.configResolutionStrategy
    additionalEnvironment := st.settings.additionalEnvironment
    cacheVersion := st.settings.cacheVersion
    oidcSubIncludeClaimKeys := st.settings.oidcSubIncludeClaimKeys }

/-- A GraphQL error value (opaque to the component: it is only logged). -/
structure GraphQLError where
  message : String
deriving DecidableEq, Repr

/-- The outcome of `commitSaveSettingsMutation` as seen by the component:
either `onCompleted` fires with `response.saveSettings.settings` and an
optional error list, or `onError` fires with a transport error. -/
inductive MutationOutcome where
  | completed (responseSettings : Settings) (errors : Option (List GraphQLError))
  | transportError (message : String)
deriving DecidableEq, Repr

/-- The state update performed by the mutation callbacks (source lines
115-122): `onCompleted` with a present (`if (errors)`) error list logs
and returns; `onCompleted` without errors calls
`setInitialSettings(response.saveSettings.settings)`; `onError` only
logs.  No other state is touched. -/
def handleMutationOutcome (st : ComponentState) : MutationOutcome → ComponentState
  | .completed responseSettings errors =>
    match errors with
    | some _ => st
    | none => { st with initialSettings := responseSettings }
  | .transportError _ => st

/-! ### The closed set of local edit events -/

/-- One user edit event handled by the form, covering every handler that
can change the draft or the pending buffer. -/
inductive LocalEdit where
  | toggleNeedsApproval
  | changeDecryptEnvironmentVariables (value : DecryptEnvironmentVariables)
  | changeConfigResolutionStrategy (value : ConfigResolutionStrategy)
  | setClearCaches (checked : Bool)
  | editAdditionalEnvironmentToAdd (text : String)
  | addNewEnvVariable
  | deleteEnv (line : String)
  | editOidcSubIncludeClaimKeys (text : String)
deriving DecidableEq, Repr

/-- Dispatch a local edit event to its handler. -/
def applyLocalEdit (st : ComponentState) : LocalEdit → ComponentState
  | .toggleNeedsApproval => toggleNeedsApproval st
  | .changeDecryptEnvironmentVariables value => changeDecryptEnvironmentVariables st value
  | .changeConfigResolutionStrategy value => changeConfigResolutionStrategy st value
  | .setClearCaches checked => setClearCaches st checked
  | .editAdditionalEnvironmentToAdd text => editAdditionalEnvironmentToAdd st text
  | .addNewEnvVariable => addNewEnvVariable st
  | .deleteEnv line => deleteEnv st line
  | .editOidcSubIncludeClaimKeys text => editOidcSubIncludeClaimKeys st text

/-! ### Injectivity of the `JSON.stringify` model

`areSettingsTheSame` compares the sequence fields through their
serializations, so we prove that serialization is injective: decoding
is a left inverse of escaping, hence two lists of strings serialize
equally exactly when they are equal. -/

theorem decodeHexDigit_hexDigit (n : Nat) (h : n < 16) :
    decodeHexDigit (hexDigit n) = some n := by
  interval_cases n <;> decide

theorem decodeChars_escapeChar_append (c : Char) (t : List Char) :
    decodeChars (escapeChar c ++ t) = (decodeChars t).map fun p => (c :: p.1, p.2) := by
  by_cases h1 : c = '"'
  · subst h1; rw [decodeChars.eq_def]; rfl
  by_cases h2 : c = '\\'
  · subst h2; rw [decodeChars.eq_def]; rfl
  by_cases h3 : c = '\x08'
  · subst h3; rw [decodeChars.eq_def]; rfl
  by_cases h4 : c = '\t'
  · subst h4; rw [decodeChars.eq_def]; rfl
  by_cases h5 : c = '\n'
  · subst h5; rw [decodeChars.eq_def]; rfl
  by_cases h6 : c = '\x0c'
  · subst h6; rw [decodeChars.eq_def]; rfl
  by_cases h7 : c = '\r'
  · subst h7; rw [decodeChars.eq_def]; rfl
  by_cases h8 : c.toNat < 32
  · have hdiv : c.toNat / 16 < 16 := by omega
    have hmod : c.toNat % 16 < 16 := Nat.mod_lt _ (by omega)
    simp only [escapeChar, if_neg h1, if_neg h2, if_neg h3, if_neg h4, if_neg h5, if_neg h6,
      if_neg h7, if_pos h8, List.cons_append, List.nil_append]
    have h0 : decodeHexDigit '0' = some 0 := by decide
    rw [decodeChars.eq_def]
    simp [h0, decodeHexDigit_hexDigit _ hdiv, decodeHexDigit_hexDigit _ hmod]
    have hval : c.toNat / 16 * 16 + c.toNat % 16 = c.toNat := by omega
    rw [hval, Char.ofNat_toNat]
  · simp only [escapeChar, if_neg h1, if_neg h2, if_neg h3, if_neg h4, if_neg h5, if_neg h6,
      if_neg h7, if_neg h8, List.cons_append, List.nil_append]
    rw [decodeChars.eq_def]
    simp only [if_neg h1, if_neg h2]

theorem decodeChars_escapeList (s r : List Char) :
    decodeChars (escapeList s ++ ('"' :: r)) = some (s, r) := by
  induction s with
  | nil => rw [escapeList, List.nil_append, decodeChars.eq_def]; rfl
  | cons c s ih =>
    rw [escapeList, List.append_assoc, decodeChars_escapeChar_append, ih]
    rfl

theorem quoteJSONString_append_inj {s1 s2 r1 r2 : List Char}
    (h : quoteJSONString s1 ++ r1 = quoteJSONString s2 ++ r2) :
    s1 = s2 ∧ r1 = r2 := by
  have h1 : escapeList s1 ++ ('"' :: r1) = escapeList s2 ++ ('"' :: r2) := by
    simpa [quoteJSONString, List.append_assoc] using h
  have h2 := congrArg decodeChars h1
  rw [decodeChars_escapeList, decodeChars_escapeList] at h2
  injection h2 with h3
  exact ⟨congrArg Prod.fst h3, congrArg Prod.snd h3⟩

theorem stringifyTail_append_inj :
    ∀ l1 l2 : List (List Char),
      stringifyTail l1 ++ [']'] = stringifyTail l2 ++ [']'] → l1 = l2 := by
  intro l1
  induction l1 with
  | nil =>
    intro l2 h
    cases l2 with
    | nil => rfl
    | cons s rest =>
      rw [stringifyTail, stringifyTail] at h
      simp only [List.nil_append, List.cons_append, List.cons.injEq] at h
      exact absurd h.1 (by decide)
  | cons s1 rest1 ih =>
    intro l2 h
    cases l2 with
    | nil =>
      rw [stringifyTail, stringifyTail] at h
      simp only [List.nil_append, List.cons_append, List.cons.injEq] at h
      exact absurd h.1 (by decide)
    | cons s2 rest2 =>
      rw [stringifyTail, stringifyTail] at h
      simp only [List.cons_append, List.cons.injEq, List.append_assoc] at h
      obtain ⟨hs, hr⟩ := quoteJSONString_append_inj h.2
      rw [hs, ih rest2 hr]

theorem stringifyElems_append_inj (l1 l2 : List (List Char))
    (h : stringifyElems l1 ++ [']'] = stringifyElems l2 ++ [']']) : l1 = l2 := by
  cases l1 with
  | nil =>
    cases l2 with
    | nil => rfl
    | cons s rest =>
      rw [stringifyElems, stringifyElems] at h
      simp only [List.nil_append, quoteJSONString, List.cons_append, List.cons.injEq] at h
      exact absurd h.1 (by decide)
  | cons s1 rest1 =>
    cases l2 with
    | nil =>
      rw [stringifyElems, stringifyElems] at h
      simp only [List.nil_append, quoteJSONString, List.cons_append, List.cons.injEq] at h
      exact absurd h.1 (by decide)
    | cons s2 rest2 =>
      rw [stringifyElems, stringifyElems] at h
      rw [List.append_assoc, List.append_assoc] at h
      obtain ⟨hs, hr⟩ := quoteJSONString_append_inj h
      rw [hs, stringifyTail_append_inj rest1 rest2 hr]

theorem jsonStringifyStringList_inj {l1 l2 : List String}
    (h : jsonStringifyStringList l1 = jsonStringifyStringList l2) : l1 = l2 := by
  have h1 :
      '[' :: (stringifyElems (l1.map String.data) ++ [']'])
        = '[' :: (stringifyElems (l2.map String.data) ++ [']']) :=
    congrArg String.data h
  injection h1 with _ h2
  have h3 := stringifyElems_append_inj _ _ h2
  have hinj : Function.Injective String.data := fun a b hab => String.ext hab
  exact List.map_injective_iff.mpr hinj h3

theorem jsonStringifyStringList_eq_iff (l1 l2 : List String) :
    jsonStringifyStringList l1 = jsonStringifyStringList l2 ↔ l1 = l2 :=
  ⟨jsonStringifyStringList_inj, fun h => by rw [h]⟩

/-- The six-way conjunction computed by `areSettingsTheSame` holds
exactly when the corresponding fields are equal, the sequence fields by
plain (order-sensitive) list equality. -/
theorem areSettingsTheSame_iff (initialSettings settings : Settings) :
    areSettingsTheSame initialSettings settings = true ↔
      settings.needsApproval = initialSettings.needsApproval ∧
      settings.configResolutionStrategy = initialSettings.configResolutionStrategy ∧
      settings.additionalEnvironment = initialSettings.additionalEnvironment ∧
      settings.oidcSubIncludeClaimKeys = initialSettings.oidcSubIncludeClaimKeys ∧
      settings.decryptEnvironmentVariables = initialSettings.decryptEnvironmentVariables ∧
      settings.cacheVersion = initialSettings.cacheVersion := by
  simp [areSettingsTheSame, jsonStringifyStringList_eq_iff]
  tauto

/-! ### Concrete values used by counterexamples -/

/-- A concrete settings snapshot. -/
def sampleSettings : Settings :=
  { needsApproval := false
    decryptEnvironmentVariables := .EVERYONE
    configResolutionStrategy := .SAME_SHA
    additionalEnvironment := []
    cacheVersion := 3
    oidcSubIncludeClaimKeys := [] }

/-- A concrete component state whose draft differs from its saved
snapshot in `needsApproval`. -/
def sampleState : ComponentState :=
  { initialSettings := sampleSettings
    settings := { sampleSettings with needsApproval := true }
    additionalEnvironmentToAdd := "" }

/-- A "normalized" server response that differs from the draft that was
sent: the server additionally returns a normalized environment line. -/
def sampleNormalizedResponse : Settings :=
  { sampleSettings with needsApproval := true, additionalEnvironment := ["FOO=bar"] }

/-! ### The claims -/

/-- C1, counterexample: after a successful save whose response is
normalized by the server (different from the draft that was sent), the
draft snapshot is NOT synchronized to the server-returned value — it
still holds the previously edited value, so the claim that `draft` ends
up equal to the server's returned value is false. -/
theorem save_success_does_not_sync_draft_counterexample :
    (handleMutationOutcome sampleState
        (.completed sampleNormalizedResponse none)).settings
      ≠ sampleNormalizedResponse ∧
    (handleMutationOutcome sampleState
        (.completed sampleNormalizedResponse none)).initialSettings
      = sampleNormalizedResponse := by
  constructor
  · decide
  · rfl

/-- C1, amended: on a successful save (no errors in the mutation
response), the saved snapshot is replaced by the settings value returned
by the server, while the draft snapshot (and the pending buffer) are
left unchanged — so the draft equals the server-returned value only when
the server returns exactly what was sent. -/
theorem save_success_replaces_saved_leaves_draft
    (st : ComponentState) (responseSettings : Settings) :
    (handleMutationOutcome st (.completed responseSettings none)).initialSettings
        = responseSettings ∧
    (handleMutationOutcome st (.completed responseSettings none)).settings
        = st.settings ∧
    (handleMutationOutcome st (.completed responseSettings none)).additionalEnvironmentToAdd
        = st.additionalEnvironmentToAdd :=
  ⟨rfl, rfl, rfl⟩

/-- C2: every failing save attempt — a mutation response carrying a
GraphQL error list, or a transport error — leaves the component state
exactly as it was: saved snapshot, draft snapshot and pending buffer are
all untouched. -/
theorem save_failure_leaves_state_unchanged
    (st : ComponentState) (responseSettings : Settings)
    (errs : List GraphQLError) (msg : String) :
    handleMutationOutcome st (.completed responseSettings (some errs)) = st ∧
    handleMutationOutcome st (.transportError msg) = st :=
  ⟨rfl, rfl⟩

/-- C3: `isDirty saved draft` is false exactly when all six fields
agree — `needsApproval`, `configResolutionStrategy`,
`decryptEnvironmentVariables` and `cacheVersion` by equality, and the
two sequence fields by order-sensitive equality of the full sequences
(the serialized comparison distinguishes sequences that differ only in
order, as the concrete reordered pair shows). -/
theorem isDirty_false_iff_all_fields_agree :
    (∀ saved draft : Settings,
      isDirty saved draft = false ↔
        draft.needsApproval = saved.needsApproval ∧
        draft.configResolutionStrategy = saved.configResolutionStrategy ∧
        draft.decryptEnvironmentVariables = saved.decryptEnvironmentVariables ∧
        draft.cacheVersion = saved.cacheVersion ∧
        draft.additionalEnvironment = saved.additionalEnvironment ∧
        draft.oidcSubIncludeClaimKeys = saved.oidcSubIncludeClaimKeys) ∧
    isDirty { sampleSettings with additionalEnvironment := ["a", "b"] }
      { sampleSettings with additionalEnvironment := ["b", "a"] } = true := by
  constructor
  · intro saved draft
    rw [isDirty, Bool.not_eq_false', areSettingsTheSame_iff]
    tauto
  · decide

/-- C4: for every settings value `S`, `isDirty S S` is false, and for
every component state whose draft equals its saved snapshot the Save
button is disabled. -/
theorem isDirty_refl_and_save_disabled (S : Settings) (buf : String) :
    isDirty S S = false ∧
    saveButtonDisabled { initialSettings := S, settings := S,
                         additionalEnvironmentToAdd := buf } = true := by
  constructor
  · rw [isDirty, Bool.not_eq_false', areSettingsTheSame_iff]
    exact ⟨rfl, rfl, rfl, rfl, rfl, rfl⟩
  · rw [saveButtonDisabled, areSettingsTheSame_iff]
    exact ⟨rfl, rfl, rfl, rfl, rfl, rfl⟩

/-- C5: checking the clear-caches toggle sets the draft's
`cacheVersion` to `saved.cacheVersion + 1`, unchecking sets it back to
`saved.cacheVersion`, so checking then unchecking restores it exactly;
the checkbox's displayed state is computed (not stored) as
`draft.cacheVersion ≠ saved.cacheVersion`. -/
theorem clear_caches_toggle_spec (st : ComponentState) :
    (setClearCaches st true).settings.cacheVersion
        = st.initialSettings.cacheVersion + 1 ∧
    (setClearCaches st false).settings.cacheVersion
        = st.initialSettings.cacheVersion ∧
    (setClearCaches (setClearCaches st true) false).settings.cacheVersion
        = st.initialSettings.cacheVersion ∧
    clearCachesChecked st
        = decide (st.settings.cacheVersion ≠ st.initialSettings.cacheVersion) := by
  refine ⟨rfl, rfl, rfl, ?_⟩
  rw [clearCachesChecked, decide_eq_decide]
  exact ne_comm

/-- C6: editing the OIDC claim-keys input replaces the draft's
`oidcSubIncludeClaimKeys` with the raw text split on `,` — no trimming,
no empty-segment filtering: `"a,b,c"` yields `["a","b","c"]`, the empty
string yields `[""]`, `"a,"` yields `["a",""]`. -/
theorem oidc_claim_keys_split_spec :
    (∀ (st : ComponentState) (text : String),
      (editOidcSubIncludeClaimKeys st text).settings.oidcSubIncludeClaimKeys
        = splitJS text ',') ∧
    splitJS "a,b,c" ',' = ["a", "b", "c"] ∧
    splitJS "" ',' = [""] ∧
    splitJS "a," ',' = ["a", ""] := by
  refine ⟨fun st text => rfl, ?_, ?_, ?_⟩ <;> decide

/-- C7: removing an environment line deletes ALL entries equal to the
target line; hence appending a line `L` (by typing it into the pending
buffer and committing) and then removing `L` restores the prior
`additionalEnvironment` exactly when `L` did not already occur in it,
and otherwise additionally deletes every pre-existing duplicate of
`L`. -/
theorem delete_env_removes_all_occurrences (st : ComponentState) (L : String) :
    ((deleteEnv st L).settings.additionalEnvironment
        = st.settings.additionalEnvironment.filter fun value => decide (value ≠ L)) ∧
    ((deleteEnv (addNewEnvVariable (editAdditionalEnvironmentToAdd st L)) L).settings.additionalEnvironment
        = if L ∈ st.settings.additionalEnvironment
          then st.settings.additionalEnvironment.filter fun value => decide (value ≠ L)
          else st.settings.additionalEnvironment) := by
  have hfilter : ∀ l : List String,
      (l.filter fun value => L != value) = l.filter fun value => decide (value ≠ L) := by
    intro l
    apply List.filter_congr
    intro x _
    rw [Bool.eq_iff_iff]
    simp [bne_iff_ne]
    exact ne_comm
  constructor
  · rw [deleteEnv, hfilter]
  · show ((st.settings.additionalEnvironment ++ [L]).filter fun value => L != value) = _
    rw [List.filter_append, hfilter, hfilter]
    have hL : ([L].filter fun value => decide (value ≠ L)) = [] := by simp
    rw [hL, List.append_nil]
    by_cases hmem : L ∈ st.settings.additionalEnvironment
    · rw [if_pos hmem]
    · rw [if_neg hmem]
      apply List.filter_eq_self.mpr
      intro a ha
      simp only [decide_eq_true_eq]
      intro h
      exact hmem (h ▸ ha)

/-- C8: the saved snapshot is never changed by local edits: for every
starting state and every sequence of field-editor events, the state
reached by applying them all still has the original `initialSettings`. -/
theorem local_edits_never_change_saved (st : ComponentState) (edits : List LocalEdit) :
    (edits.foldl applyLocalEdit st).initialSettings = st.initialSettings := by
  induction edits generalizing st with
  | nil => rfl
  | cons e rest ih =>
    rw [List.foldl_cons, ih]
    cases e <;> rfl

/-- C9: every field editor copies the draft and overwrites exactly one
field — the resulting draft is literally the old draft with a single
field replaced, so all other fields are unchanged. -/
theorem editors_overwrite_exactly_one_field (st : ComponentState)
    (dv : DecryptEnvironmentVariables) (cs : ConfigResolutionStrategy)
    (checked : Bool) (line text : String) :
    (toggleNeedsApproval st).settings
        = { st.settings with needsApproval := !st.settings.needsApproval } ∧
    (changeDecryptEnvironmentVariables st dv).settings
        = { st.settings with decryptEnvironmentVariables := dv } ∧
    (changeConfigResolutionStrategy st cs).settings
        = { st.settings with configResolutionStrategy := cs } ∧
    (setClearCaches st checked).settings
        = { st.settings with cacheVersion :=
              if checked then st.initialSettings.cacheVersion + 1
              else st.initialSettings.cacheVersion } ∧
    (addNewEnvVariable st).settings
        = { st.settings with additionalEnvironment :=
              st.settings.additionalEnvironment ++ [st.additionalEnvironmentToAdd] } ∧
    (deleteEnv st line).settings
        = { st.settings with additionalEnvironment :=
              st.settings.additionalEnvironment.filter fun value => line != value } ∧
    (editOidcSubIncludeClaimKeys st text).settings
        = { st.settings with oidcSubIncludeClaimKeys := splitJS text ',' } :=
  ⟨rfl, rfl, rfl, rfl, rfl, rfl, rfl⟩

/-- C10: committing the pending environment line performs no validation:
whatever the buffer holds — including the empty string — that exact
string is appended to the end of the draft's `additionalEnvironment`,
and the buffer is cleared. -/
theorem add_env_variable_no_validation (st : ComponentState) :
    (addNewEnvVariable st).settings.additionalEnvironment
        = st.settings.additionalEnvironment ++ [st.additionalEnvironmentToAdd] ∧
    (addNewEnvVariable st).additionalEnvironmentToAdd = "" ∧
    (addNewEnvVariable { st with additionalEnvironmentToAdd := "" }).settings.additionalEnvironment
        = st.settings.additionalEnvironment ++ [""] :=
  ⟨rfl, rfl, rfl⟩

end RepositorySettings
